import Mathlib

/-!
# Verification of the *arr suite API client (`src/arr-client.ts`)

Shallow embedding of the TypeScript client for the *arr media-management
services (Sonarr, Radarr, Lidarr, Readarr, Prowlarr).  Pure request-building
code is translated into executable Lean functions; the HTTP transport is
modelled as an oracle (`FetchOutcome`) supplied to the dispatcher.  JavaScript
objects are modelled as association lists of string keys and JSON values,
where reading a field returns the value of the *last* binding for that key;
this matches object-spread semantics (`{...a, k: v}`: later bindings win).
-/

set_option autoImplicit false

/-- JSON values, the payloads exchanged with the services. -/
inductive JsonVal where
  | null
  | bool (b : Bool)
  | num (n : Int)
  | str (s : String)
  | arr (elems : List JsonVal)
  | obj (fields : List (String × JsonVal))
deriving Repr

/-- Value of the last binding of key `k`, i.e. the field value of the
JavaScript object built by assigning the bindings left to right. -/
def lookupLast {α : Type} : List (String × α) → String → Option α
  | [], _ => none
  | p :: rest, k =>
    match lookupLast rest k with
    | some v => some v
    | none => if p.1 = k then some p.2 else none

/-- Reading a key from the concatenation of two binding lists: the later
(`extra`) list wins when it binds the key, otherwise the base list is read. -/
def overrideLookup {α : Type} (base extra : List (String × α)) (k : String) :
    Option α :=
  match lookupLast extra k with
  | some v => some v
  | none => lookupLast base k

/-- JavaScript `x ?? d` applied to a field access: the default is used when
the field is absent (`undefined`) or bound to `null`. -/
def jsNullish (v : Option JsonVal) (d : JsonVal) : JsonVal :=
  match v with
  | none => d
  | some .null => d
  | some x => x

/-! ## Percent encodings

`encodeURIComponent` (used in the `lookup?term=` endpoints) and the WHATWG
`application/x-www-form-urlencoded` serializer of `URLSearchParams.toString()`
(used by `getCalendar` and the Prowlarr `search`). -/

/-- Upper-case hex digit, `0 ≤ n < 16`. -/
def hexDigit (n : Nat) : Char :=
  if n < 10 then Char.ofNat (48 + n) else Char.ofNat (55 + n)

/-- `%XX` percent escape of one byte. -/
def byteHex (n : Nat) : String :=
  String.mk ['%', hexDigit (n / 16), hexDigit (n % 16)]

/-- UTF-8 bytes of a character. -/
def utf8Bytes (c : Char) : List Nat :=
  let n := c.toNat
  if n < 0x80 then [n]
  else if n < 0x800 then
    [0xC0 ||| (n >>> 6), 0x80 ||| (n &&& 0x3F)]
  else if n < 0x10000 then
    [0xE0 ||| (n >>> 12), 0x80 ||| ((n >>> 6) &&& 0x3F), 0x80 ||| (n &&& 0x3F)]
  else
    [0xF0 ||| (n >>> 18), 0x80 ||| ((n >>> 12) &&& 0x3F),
     0x80 ||| ((n >>> 6) &&& 0x3F), 0x80 ||| (n &&& 0x3F)]

/-- Characters `encodeURIComponent` leaves unescaped:
`A-Z a-z 0-9 - _ . ! ~ * ' ( )`. -/
def isUriUnreserved (c : Char) : Bool :=
  c.isAlphanum && c.toNat < 128 ||
    c = '-' || c = '_' || c = '.' || c = '!' || c = '~' || c = '*' ||
    c = Char.ofNat 39 || c = '(' || c = ')'

/-- JavaScript `encodeURIComponent`. -/
def encodeURIComponent (s : String) : String :=
  String.join (s.data.map fun c =>
    if isUriUnreserved c then String.mk [c]
    else String.join ((utf8Bytes c).map byteHex))

/-- One character under `application/x-www-form-urlencoded` serialization:
space becomes `+`; ASCII alphanumerics and `*-._` stay; the rest is
percent-encoded per UTF-8 byte. -/
def formEncodeChar (c : Char) : String :=
  if c = ' ' then "+"
  else if c.isAlphanum && c.toNat < 128 || c = '*' || c = '-' || c = '.' || c = '_' then
    String.mk [c]
  else String.join ((utf8Bytes c).map byteHex)

/-- `application/x-www-form-urlencoded` serialization of a string. -/
def formEncode (s : String) : String :=
  String.join (s.data.map formEncodeChar)

/-- `URLSearchParams.toString()`: `k=v` pairs joined by `&`, both sides
form-url-encoded. -/
def searchParamsToString : List (String × String) → String
  | [] => ""
  | [p] => formEncode p.1 ++ "=" ++ formEncode p.2
  | p :: rest => formEncode p.1 ++ "=" ++ formEncode p.2 ++ "&" ++ searchParamsToString rest

/-! ## Configuration and the base client (`ArrClient`) -/

/-- `ArrConfig`: the `{ url, apiKey }` pair handed to a client constructor. -/
structure ArrConfig where
  url : String
  apiKey : String
deriving DecidableEq, Repr

/-- The fields the TypeScript `ArrClient` instance stores: the normalized
configuration, the service name, and the API version string. -/
structure ArrClientState where
  url : String
  apiKey : String
  serviceName : String
  apiVersion : String
deriving DecidableEq, Repr

/-- `config.url.replace(/\/$/, '')`: the regex matches a single `/` at the
very end of the string, so at most one trailing slash is removed. -/
def stripTrailingSlash (s : String) : String :=
  if s.data.getLast? = some '/' then String.mk s.data.dropLast else s

/-- Follows the spec's words ("base URL (trailing slash stripped)",
"base_url (slash-trimmed)") read as full normalization: every trailing `/`
removed.  Comparator for the refinement claim about request URLs; the
source's own constructor is `stripTrailingSlash`. -/
def specSlashTrimmed (s : String) : String :=
  String.mk ((s.data.reverse.dropWhile fun c => c = '/').reverse)

/-- The `ArrClient` constructor: stores the service name, the slash-stripped
URL and the key; the `apiVersion` field initializer is `'v3'`. -/
def ArrClient.make (serviceName : String) (config : ArrConfig) : ArrClientState :=
  { url := stripTrailingSlash config.url
  , apiKey := config.apiKey
  , serviceName := serviceName
  , apiVersion := "v3" }

/-- The fixed headers of `ArrClient.request`. -/
def ArrClient.baseHeaders (st : ArrClientState) : List (String × String) :=
  [("Content-Type", "application/json"), ("X-Api-Key", st.apiKey)]

/-- Header merge in `ArrClient.request`: the fixed set spread first, then the
caller-supplied headers, so on a key collision the caller's binding is read. -/
def ArrClient.mergeHeaders (st : ArrClientState) (extra : List (String × String)) :
    List (String × String) :=
  ArrClient.baseHeaders st ++ extra

/-- The `RequestInit` options a method passes to `ArrClient.request`
(every call site supplies at most `method` and `body`). -/
structure RequestOptions where
  method : String := "GET"
  body : Option JsonVal := none
  headers : List (String × String) := []
deriving Repr

/-- The single HTTP request a call to `ArrClient.request` issues. -/
structure HttpRequest where
  url : String
  method : String
  headers : List (String × String)
  body : Option JsonVal
deriving Repr

/-- URL and request construction of `ArrClient.request`:
`${this.config.url}/api/${this.apiVersion}${endpoint}` plus merged headers. -/
def ArrClient.buildRequest (st : ArrClientState) (endpoint : String)
    (options : RequestOptions) : HttpRequest :=
  { url := st.url ++ "/api/" ++ st.apiVersion ++ endpoint
  , method := options.method
  , headers := ArrClient.mergeHeaders st options.headers
  , body := options.body }

/-- What `fetch` resolved to: an HTTP response (with status, status text and
a body readable as text or JSON), or a network-level rejection. -/
structure HttpResponse where
  status : Nat
  statusText : String
  bodyText : String
  bodyJson : JsonVal
deriving Repr

/-- `Response.ok`: status in the inclusive-exclusive range `[200, 300)`. -/
def HttpResponse.ok (r : HttpResponse) : Bool :=
  decide (200 ≤ r.status) && decide (r.status < 300)

inductive FetchOutcome where
  | response (r : HttpResponse)
  | networkFailure (err : String)

/-- The two failure kinds a method can propagate: the `Error` thrown by
`ArrClient.request` on a non-ok status, and the transport rejection from
`fetch` itself, which `ArrClient.request` does not touch. -/
inductive ThrownError where
  | api (message : String)
  | transport (err : String)
deriving DecidableEq, Repr

/-- How a method call resolves: with a JSON value, or by throwing. -/
inductive MethodOutcome where
  | value (v : JsonVal)
  | thrown (e : ThrownError)

/-- Response handling of `ArrClient.request`: non-ok statuses become the
service-API `Error`, ok statuses resolve with the parsed JSON body, and a
network failure propagates unchanged. -/
def ArrClient.handleResponse (st : ArrClientState) (outcome : FetchOutcome) :
    MethodOutcome :=
  match outcome with
  | .networkFailure e => .thrown (.transport e)
  | .response r =>
    if r.ok then .value r.bodyJson
    else .thrown (.api (st.serviceName ++ " API error: " ++ toString r.status
      ++ " " ++ r.statusText ++ " - " ++ r.bodyText))

/-- `ArrClient.testConnection`: awaits `getStatus` inside `try`/`catch`,
reducing success to `true` and any thrown error to `false`. -/
def ArrClient.testConnection (st : ArrClientState) (outcome : FetchOutcome) : Bool :=
  match ArrClient.handleResponse st outcome with
  | .value _ => true
  | .thrown _ => false

/-- Query building of the base `ArrClient.getCalendar`: `start`/`end` are
appended only when truthy (JavaScript `if (start)` skips both `undefined` and
the empty string), and the leading `?` only when the serialization is
nonempty. -/
def ArrClient.calendarQuery (s e : Option String) : String :=
  let ps := (match s with
              | some v => if v = "" then [] else [("start", v)]
              | none => [])
         ++ (match e with
              | some v => if v = "" then [] else [("end", v)]
              | none => [])
  let q := searchParamsToString ps
  if q = "" then "" else "?" ++ q

/-! ## Base-class methods -/

/-- The public methods declared on `ArrClient` itself, with their arguments.
`testConnection` delegates to `getStatus`, so the request it issues is the
status request. -/
inductive ArrMethod where
  | getStatus
  | getQueue
  | getCalendar (s e : Option String)
  | getRootFolders
  | getQualityProfiles
  | testConnection

/-- Endpoint string each base method passes to `ArrClient.request`. -/
def ArrMethod.endpoint : ArrMethod → String
  | .getStatus => "/system/status"
  | .getQueue => "/queue?includeUnknownSeriesItems=true&includeUnknownMovieItems=true"
  | .getCalendar s e => "/calendar" ++ ArrClient.calendarQuery s e
  | .getRootFolders => "/rootfolder"
  | .getQualityProfiles => "/qualityprofile"
  | .testConnection => "/system/status"

/-! ## SonarrClient -/

/-- `SonarrClient` constructor: `super('sonarr', config)`, keeping the
inherited `apiVersion = 'v3'`. -/
def SonarrClient.make (config : ArrConfig) : ArrClientState :=
  ArrClient.make "sonarr" config

/-- Posted body of `addSeries`: object spread of the argument, then
`monitored: series.monitored ?? true`, `seasonFolder: series.seasonFolder ??
true`, and the fixed `addOptions` block, assigned in that order. -/
def SonarrClient.addSeriesFields (series : List (String × JsonVal)) :
    List (String × JsonVal) :=
  series ++
    [ ("monitored", jsNullish (lookupLast series "monitored") (.bool true))
    , ("seasonFolder", jsNullish (lookupLast series "seasonFolder") (.bool true))
    , ("addOptions", .obj [("searchForMissingEpisodes", .bool true)]) ]

/-- The public methods of `SonarrClient` (inherited base methods included). -/
inductive SonarrMethod where
  | base (m : ArrMethod)
  | getSeries
  | getSeriesById (id : Int)
  | searchSeries (term : String)
  | addSeries (series : List (String × JsonVal))
  | searchMissing (seriesId : Int)
  | getEpisodes (seriesId : Int) (seasonNumber : Option Int)
  | searchEpisode (episodeIds : List Int)

def SonarrMethod.endpoint : SonarrMethod → String
  | .base m => m.endpoint
  | .getSeries => "/series"
  | .getSeriesById id => "/series/" ++ toString id
  | .searchSeries term => "/series/lookup?term=" ++ encodeURIComponent term
  | .addSeries _ => "/series"
  | .searchMissing _ => "/command"
  | .getEpisodes seriesId seasonNumber =>
    "/episode?seriesId=" ++ toString seriesId ++
      (match seasonNumber with
       | some n => "&seasonNumber=" ++ toString n
       | none => "")
  | .searchEpisode _ => "/command"

def SonarrMethod.options : SonarrMethod → RequestOptions
  | .addSeries series =>
    { method := "POST", body := some (.obj (SonarrClient.addSeriesFields series)) }
  | .searchMissing seriesId =>
    { method := "POST"
    , body := some (.obj [("name", .str "SeriesSearch"), ("seriesId", .num seriesId)]) }
  | .searchEpisode episodeIds =>
    { method := "POST"
    , body := some (.obj [("name", .str "EpisodeSearch"),
        ("episodeIds", .arr (episodeIds.map JsonVal.num))]) }
  | _ => {}

def SonarrMethod.isTestConnection : SonarrMethod → Bool
  | .base .testConnection => true
  | _ => false

/-- The request a `SonarrClient` method issues. -/
def SonarrClient.methodRequest (st : ArrClientState) (m : SonarrMethod) : HttpRequest :=
  ArrClient.buildRequest st m.endpoint m.options

/-- One `SonarrClient` method call as a state transition: methods never assign
to the instance fields, and every method other than `testConnection` returns
the dispatcher's result unchanged. -/
def SonarrClient.run (st : ArrClientState) (m : SonarrMethod) (outcome : FetchOutcome) :
    ArrClientState × MethodOutcome :=
  (st, if m.isTestConnection then .value (.bool (ArrClient.testConnection st outcome))
       else ArrClient.handleResponse st outcome)

def SonarrClient.runAll (st : ArrClientState)
    (calls : List (SonarrMethod × FetchOutcome)) : ArrClientState :=
  calls.foldl (fun s c => (SonarrClient.run s c.1 c.2).1) st

/-! ## RadarrClient -/

/-- `RadarrClient` constructor: `super('radarr', config)`, `apiVersion = 'v3'`. -/
def RadarrClient.make (config : ArrConfig) : ArrClientState :=
  ArrClient.make "radarr" config

/-- Posted body of `addMovie`: spread, then `monitored: movie.monitored ??
true` and the fixed `addOptions` block. -/
def RadarrClient.addMovieFields (movie : List (String × JsonVal)) :
    List (String × JsonVal) :=
  movie ++
    [ ("monitored", jsNullish (lookupLast movie "monitored") (.bool true))
    , ("addOptions", .obj [("searchForMovie", .bool true)]) ]

inductive RadarrMethod where
  | base (m : ArrMethod)
  | getMovies
  | getMovieById (id : Int)
  | searchMovies (term : String)
  | addMovie (movie : List (String × JsonVal))
  | searchMovie (movieId : Int)

def RadarrMethod.endpoint : RadarrMethod → String
  | .base m => m.endpoint
  | .getMovies => "/movie"
  | .getMovieById id => "/movie/" ++ toString id
  | .searchMovies term => "/movie/lookup?term=" ++ encodeURIComponent term
  | .addMovie _ => "/movie"
  | .searchMovie _ => "/command"

def RadarrMethod.options : RadarrMethod → RequestOptions
  | .addMovie movie =>
    { method := "POST", body := some (.obj (RadarrClient.addMovieFields movie)) }
  | .searchMovie movieId =>
    { method := "POST"
    , body := some (.obj [("name", .str "MoviesSearch"),
        ("movieIds", .arr [.num movieId])]) }
  | _ => {}

def RadarrMethod.isTestConnection : RadarrMethod → Bool
  | .base .testConnection => true
  | _ => false

def RadarrClient.methodRequest (st : ArrClientState) (m : RadarrMethod) : HttpRequest :=
  ArrClient.buildRequest st m.endpoint m.options

def RadarrClient.run (st : ArrClientState) (m : RadarrMethod) (outcome : FetchOutcome) :
    ArrClientState × MethodOutcome :=
  (st, if m.isTestConnection then .value (.bool (ArrClient.testConnection st outcome))
       else ArrClient.handleResponse st outcome)

def RadarrClient.runAll (st : ArrClientState)
    (calls : List (RadarrMethod × FetchOutcome)) : ArrClientState :=
  calls.foldl (fun s c => (RadarrClient.run s c.1 c.2).1) st

/-! ## LidarrClient -/

/-- `LidarrClient` constructor: `super('lidarr', config)` then
`this.apiVersion = 'v1'`. -/
def LidarrClient.make (config : ArrConfig) : ArrClientState :=
  { ArrClient.make "lidarr" config with apiVersion := "v1" }

/-- Posted body of `addArtist`: spread, `monitored: artist.monitored ?? true`,
fixed `addOptions` block. -/
def LidarrClient.addArtistFields (artist : List (String × JsonVal)) :
    List (String × JsonVal) :=
  artist ++
    [ ("monitored", jsNullish (lookupLast artist "monitored") (.bool true))
    , ("addOptions", .obj [("searchForMissingAlbums", .bool true)]) ]

/-- Lidarr's own `getCalendar` override; its query-building code is the same
as the base class's, repeated verbatim in the source. -/
def LidarrClient.calendarQuery (s e : Option String) : String :=
  let ps := (match s with
              | some v => if v = "" then [] else [("start", v)]
              | none => [])
         ++ (match e with
              | some v => if v = "" then [] else [("end", v)]
              | none => [])
  let q := searchParamsToString ps
  if q = "" then "" else "?" ++ q

inductive LidarrMethod where
  | base (m : ArrMethod)
  | getArtists
  | getArtistById (id : Int)
  | searchArtists (term : String)
  | addArtist (artist : List (String × JsonVal))
  | getAlbums (artistId : Option Int)
  | getAlbumById (id : Int)
  | searchMissingAlbums (artistId : Int)
  | searchAlbum (albumId : Int)

/-- Endpoints of `LidarrClient` methods.  Dynamic dispatch sends a
`getCalendar` call on a Lidarr instance to the override, hence the inner
match on the base method.  `getAlbums` keys on JavaScript truthiness of
`artistId` (`0` is falsy). -/
def LidarrMethod.endpoint : LidarrMethod → String
  | .base (.getCalendar s e) => "/calendar" ++ LidarrClient.calendarQuery s e
  | .base m => m.endpoint
  | .getArtists => "/artist"
  | .getArtistById id => "/artist/" ++ toString id
  | .searchArtists term => "/artist/lookup?term=" ++ encodeURIComponent term
  | .addArtist _ => "/artist"
  | .getAlbums artistId =>
    match artistId with
    | some n => if n = 0 then "/album" else "/album?artistId=" ++ toString n
    | none => "/album"
  | .getAlbumById id => "/album/" ++ toString id
  | .searchMissingAlbums _ => "/command"
  | .searchAlbum _ => "/command"

def LidarrMethod.options : LidarrMethod → RequestOptions
  | .addArtist artist =>
    { method := "POST", body := some (.obj (LidarrClient.addArtistFields artist)) }
  | .searchMissingAlbums artistId =>
    { method := "POST"
    , body := some (.obj [("name", .str "ArtistSearch"), ("artistId", .num artistId)]) }
  | .searchAlbum albumId =>
    { method := "POST"
    , body := some (.obj [("name", .str "AlbumSearch"),
        ("albumIds", .arr [.num albumId])]) }
  | _ => {}

def LidarrMethod.isTestConnection : LidarrMethod → Bool
  | .base .testConnection => true
  | _ => false

def LidarrClient.methodRequest (st : ArrClientState) (m : LidarrMethod) : HttpRequest :=
  ArrClient.buildRequest st m.endpoint m.options

def LidarrClient.run (st : ArrClientState) (m : LidarrMethod) (outcome : FetchOutcome) :
    ArrClientState × MethodOutcome :=
  (st, if m.isTestConnection then .value (.bool (ArrClient.testConnection st outcome))
       else ArrClient.handleResponse st outcome)

def LidarrClient.runAll (st : ArrClientState)
    (calls : List (LidarrMethod × FetchOutcome)) : ArrClientState :=
  calls.foldl (fun s c => (LidarrClient.run s c.1 c.2).1) st

/-! ## ReadarrClient -/

/-- `ReadarrClient` constructor: `super('readarr', config)` then
`this.apiVersion = 'v1'`. -/
def ReadarrClient.make (config : ArrConfig) : ArrClientState :=
  { ArrClient.make "readarr" config with apiVersion := "v1" }

/-- Posted body of `addAuthor`: spread, `monitored: author.monitored ?? true`,
fixed `addOptions` block. -/
def ReadarrClient.addAuthorFields (author : List (String × JsonVal)) :
    List (String × JsonVal) :=
  author ++
    [ ("monitored", jsNullish (lookupLast author "monitored") (.bool true))
    , ("addOptions", .obj [("searchForMissingBooks", .bool true)]) ]

/-- Readarr's own `getCalendar` override, again repeating the base logic. -/
def ReadarrClient.calendarQuery (s e : Option String) : String :=
  let ps := (match s with
              | some v => if v = "" then [] else [("start", v)]
              | none => [])
         ++ (match e with
              | some v => if v = "" then [] else [("end", v)]
              | none => [])
  let q := searchParamsToString ps
  if q = "" then "" else "?" ++ q

inductive ReadarrMethod where
  | base (m : ArrMethod)
  | getAuthors
  | getAuthorById (id : Int)
  | searchAuthors (term : String)
  | addAuthor (author : List (String × JsonVal))
  | getBooks (authorId : Option Int)
  | getBookById (id : Int)
  | searchMissingBooks (authorId : Int)
  | searchBook (bookIds : List Int)

def ReadarrMethod.endpoint : ReadarrMethod → String
  | .base (.getCalendar s e) => "/calendar" ++ ReadarrClient.calendarQuery s e
  | .base m => m.endpoint
  | .getAuthors => "/author"
  | .getAuthorById id => "/author/" ++ toString id
  | .searchAuthors term => "/author/lookup?term=" ++ encodeURIComponent term
  | .addAuthor _ => "/author"
  | .getBooks authorId =>
    match authorId with
    | some n => if n = 0 then "/book" else "/book?authorId=" ++ toString n
    | none => "/book"
  | .getBookById id => "/book/" ++ toString id
  | .searchMissingBooks _ => "/command"
  | .searchBook _ => "/command"

def ReadarrMethod.options : ReadarrMethod → RequestOptions
  | .addAuthor author =>
    { method := "POST", body := some (.obj (ReadarrClient.addAuthorFields author)) }
  | .searchMissingBooks authorId =>
    { method := "POST"
    , body := some (.obj [("name", .str "AuthorSearch"), ("authorId", .num authorId)]) }
  | .searchBook bookIds =>
    { method := "POST"
    , body := some (.obj [("name", .str "BookSearch"),
        ("bookIds", .arr (bookIds.map JsonVal.num))]) }
  | _ => {}

def ReadarrMethod.isTestConnection : ReadarrMethod → Bool
  | .base .testConnection => true
  | _ => false

def ReadarrClient.methodRequest (st : ArrClientState) (m : ReadarrMethod) : HttpRequest :=
  ArrClient.buildRequest st m.endpoint m.options

def ReadarrClient.run (st : ArrClientState) (m : ReadarrMethod) (outcome : FetchOutcome) :
    ArrClientState × MethodOutcome :=
  (st, if m.isTestConnection then .value (.bool (ArrClient.testConnection st outcome))
       else ArrClient.handleResponse st outcome)

def ReadarrClient.runAll (st : ArrClientState)
    (calls : List (ReadarrMethod × FetchOutcome)) : ArrClientState :=
  calls.foldl (fun s c => (ReadarrClient.run s c.1 c.2).1) st

/-! ## ProwlarrClient -/

/-- `ProwlarrClient` constructor: `super('prowlarr', config)` then
`this.apiVersion = 'v1'`. -/
def ProwlarrClient.make (config : ArrConfig) : ArrClientState :=
  { ArrClient.make "prowlarr" config with apiVersion := "v1" }

inductive ProwlarrMethod where
  | base (m : ArrMethod)
  | getIndexers
  | testAllIndexers
  | testIndexer (indexerId : Int)
  | getIndexerStats
  | search (query : String) (categories : Option (List Int))

/-- Endpoints of `ProwlarrClient` methods.  For `search`, the params start
from `{ query }` and each category is appended; an `undefined` categories
argument appends nothing (an empty array is truthy in JavaScript and also
appends nothing). -/
def ProwlarrMethod.endpoint : ProwlarrMethod → String
  | .base m => m.endpoint
  | .getIndexers => "/indexer"
  | .testAllIndexers => "/indexer/testall"
  | .testIndexer indexerId => "/indexer/" ++ toString indexerId ++ "/test"
  | .getIndexerStats => "/indexerstats"
  | .search query categories =>
    "/search?" ++ searchParamsToString
      (("query", query) ::
        (match categories with
         | some cs => cs.map fun c => ("categories", toString c)
         | none => []))

def ProwlarrMethod.options : ProwlarrMethod → RequestOptions
  | .testAllIndexers => { method := "POST" }
  | .testIndexer _ => { method := "POST" }
  | _ => {}

def ProwlarrMethod.isTestConnection : ProwlarrMethod → Bool
  | .base .testConnection => true
  | _ => false

def ProwlarrClient.methodRequest (st : ArrClientState) (m : ProwlarrMethod) : HttpRequest :=
  ArrClient.buildRequest st m.endpoint m.options

def ProwlarrClient.run (st : ArrClientState) (m : ProwlarrMethod) (outcome : FetchOutcome) :
    ArrClientState × MethodOutcome :=
  (st, if m.isTestConnection then .value (.bool (ArrClient.testConnection st outcome))
       else ArrClient.handleResponse st outcome)

def ProwlarrClient.runAll (st : ArrClientState)
    (calls : List (ProwlarrMethod × FetchOutcome)) : ArrClientState :=
  calls.foldl (fun s c => (ProwlarrClient.run s c.1 c.2).1) st

/-! ## Helper lemmas for the claim theorems -/

theorem lookupLast_append {α : Type} (xs ys : List (String × α)) (k : String) :
    lookupLast (xs ++ ys) k = overrideLookup xs ys k := by
  unfold overrideLookup
  induction xs with
  | nil =>
    simp only [List.nil_append]
    cases h : lookupLast ys k <;> simp [lookupLast, h]
  | cons p xs ih =>
    cases h : lookupLast ys k <;> cases h' : lookupLast xs k <;>
      simp [lookupLast, ih, h, h']

theorem strData (a b : String) : (a ++ b).data = a.data ++ b.data := rfl

theorem strExt {a b : String} (h : a.data = b.data) : a = b := by
  cases a; cases b; exact congrArg String.mk (by simpa using h)

theorem strAssoc (a b c : String) : a ++ b ++ c = a ++ (b ++ c) :=
  strExt (by simp [strData])

theorem str_append_ne_empty_left (a b : String) (h : a ≠ "") : a ++ b ≠ "" := by
  intro hab
  apply h
  have : a.data ++ b.data = [] := by
    have := congrArg String.data hab
    simpa [strData] using this
  exact strExt (by simpa using (List.append_eq_nil.mp this).1)

-- sanity checks on the embedded primitives
example : lookupLast [("a", (1 : Int)), ("b", 2), ("a", 3)] "a" = some 3 := rfl
example : (JsonVal.obj [("id", .num 7), ("s", .str "q")] ≠ JsonVal.obj [("id", .num 7)]) := by
  simp
example : encodeURIComponent "a b&c" = "a%20b%26c" := rfl
example : formEncode "a b&c" = "a+b%26c" := rfl
example : searchParamsToString [("start", "2024-01-01"), ("end", "2024-02-01")]
    = "start=2024-01-01&end=2024-02-01" := rfl
example : stripTrailingSlash "http://h/" = "http://h" := rfl
example : stripTrailingSlash "http://h//" = "http://h/" := rfl
example : specSlashTrimmed "http://h//" = "http://h" := rfl
example : ArrClient.calendarQuery none none = "" := rfl
example : ArrClient.calendarQuery (some "a") (some "b") = "?start=a&end=b" := rfl

theorem stripTrailingSlash_concat_slash (v : String) :
    stripTrailingSlash (v ++ "/") = v := by
  show (if (v.data ++ ['/']).getLast? = some '/' then
          String.mk (v.data ++ ['/']).dropLast else v ++ "/") = v
  rw [List.getLast?_concat, List.dropLast_concat]
  rfl

theorem generic_foldl_fixed {σ γ : Type} (f : σ → γ → σ) (h : ∀ s c, f s c = s) :
    ∀ (l : List γ) (s : σ), l.foldl f s = s := by
  intro l
  induction l with
  | nil => intro s; rfl
  | cons c l ih => intro s; rw [List.foldl_cons, h]; exact ih s

/-! ## Claim theorems -/

/-- C10: the `ArrClient` constructor removes at most one trailing `/` from the
supplied base URL — the stored url is the input with exactly one final `/`
removed when one is present, and the input unchanged otherwise; an input
ending in `//` yields a stored URL still ending in `/`, and every request URL
built from it contains a double slash before `api`. -/
theorem constructor_stripsOneSlash (u apiKey : String) :
    ((ArrClient.make "sonarr" ⟨u, apiKey⟩).url
      = if u.data.getLast? = some '/' then String.mk u.data.dropLast else u)
    ∧ (∀ v : String, u = v ++ "//" →
        (ArrClient.make "sonarr" ⟨u, apiKey⟩).url = v ++ "/"
        ∧ ∀ m : SonarrMethod, ∃ rest : String,
            (SonarrClient.methodRequest (SonarrClient.make ⟨u, apiKey⟩) m).url
              = v ++ "//api/" ++ rest) := by
  constructor
  · rfl
  · intro v hv
    have hsplit : u = (v ++ "/") ++ "/" := by rw [hv, strAssoc]; rfl
    have hstr : stripTrailingSlash u = v ++ "/" := by
      rw [hsplit, stripTrailingSlash_concat_slash]
    constructor
    · exact hstr
    · intro m
      refine ⟨"v3" ++ SonarrMethod.endpoint m, ?_⟩
      have h1 : (v ++ "/") ++ "/api/" = v ++ "//api/" := by rw [strAssoc]; rfl
      calc (SonarrClient.methodRequest (SonarrClient.make ⟨u, apiKey⟩) m).url
          = ((stripTrailingSlash u ++ "/api/") ++ "v3") ++ SonarrMethod.endpoint m := rfl
        _ = (((v ++ "/") ++ "/api/") ++ "v3") ++ SonarrMethod.endpoint m := by rw [hstr]
        _ = ((v ++ "//api/") ++ "v3") ++ SonarrMethod.endpoint m := by rw [h1]
        _ = (v ++ "//api/") ++ ("v3" ++ SonarrMethod.endpoint m) := strAssoc _ _ _

/-- Witness for C10 at `u = "http://h//"`, `v = "http://h"`: the stored URL is
`"http://h/"` and the `getSeries` request URL keeps the double slash. -/
theorem constructor_stripsOneSlash_witness :
    (ArrClient.make "sonarr" ⟨"http://h//", "k"⟩).url = "http://h/"
    ∧ ∃ rest : String,
        (SonarrClient.methodRequest (SonarrClient.make ⟨"http://h//", "k"⟩)
          SonarrMethod.getSeries).url = "http://h" ++ "//api/" ++ rest := by
  have h := (constructor_stripsOneSlash "http://h//" "k").2 "http://h" rfl
  exact ⟨h.1, h.2 SonarrMethod.getSeries⟩

/-- C1 counterexample: with base URL `"http://host//"`, the `getStatus`
request URL of a `SonarrClient` is `"http://host//api/v3/system/status"`,
which is not the fully slash-trimmed base URL (`"http://host"`) concatenated
with `"/api/" + "v3" + "/system/status"`; so the claimed formula fails for a
base URL ending in more than one `/`. -/
theorem requestUrl_slashTrim_counterexample :
    (SonarrClient.methodRequest (SonarrClient.make ⟨"http://host//", "k"⟩)
        (SonarrMethod.base ArrMethod.getStatus)).url
      ≠ specSlashTrimmed "http://host//" ++ "/api/" ++ "v3" ++ "/system/status" := by
  decide

/-- C1 (amended): for every configuration and every client method, the issued
request URL is exactly the base URL with at most one trailing `/` removed
(`stripTrailingSlash`, the constructor's `replace(/\/$/, '')`) concatenated
with `"/api/" + version + endpoint`, where the version is `v3` for
`SonarrClient` and `RadarrClient` and `v1` for `LidarrClient`,
`ReadarrClient` and `ProwlarrClient`.  (The fully slash-trimmed form of the
claim fails for base URLs ending in more than one `/`, see the
counterexample.) -/
theorem requestUrl_structure (cfg : ArrConfig) :
    (∀ m : SonarrMethod,
      (SonarrClient.methodRequest (SonarrClient.make cfg) m).url
        = stripTrailingSlash cfg.url ++ "/api/" ++ "v3" ++ SonarrMethod.endpoint m)
    ∧ (∀ m : RadarrMethod,
      (RadarrClient.methodRequest (RadarrClient.make cfg) m).url
        = stripTrailingSlash cfg.url ++ "/api/" ++ "v3" ++ RadarrMethod.endpoint m)
    ∧ (∀ m : LidarrMethod,
      (LidarrClient.methodRequest (LidarrClient.make cfg) m).url
        = stripTrailingSlash cfg.url ++ "/api/" ++ "v1" ++ LidarrMethod.endpoint m)
    ∧ (∀ m : ReadarrMethod,
      (ReadarrClient.methodRequest (ReadarrClient.make cfg) m).url
        = stripTrailingSlash cfg.url ++ "/api/" ++ "v1" ++ ReadarrMethod.endpoint m)
    ∧ (∀ m : ProwlarrMethod,
      (ProwlarrClient.methodRequest (ProwlarrClient.make cfg) m).url
        = stripTrailingSlash cfg.url ++ "/api/" ++ "v1" ++ ProwlarrMethod.endpoint m) :=
  ⟨fun _ => rfl, fun _ => rfl, fun _ => rfl, fun _ => rfl, fun _ => rfl⟩

/-- C2: every request issued by the dispatcher carries the fixed pair
`Content-Type: application/json`, `X-Api-Key: <configured key>` merged with
the caller-supplied headers, where a caller-supplied binding for the same
key is the one read (object-spread, caller last); and since no public client
method supplies any header override, the `X-Api-Key` (and `Content-Type`)
header of every method's outgoing request equals the configured values. -/
theorem headers_apiKey :
    (∀ (st : ArrClientState) (extra : List (String × String)) (k : String),
      lookupLast (ArrClient.mergeHeaders st extra) k =
        overrideLookup (ArrClient.baseHeaders st) extra k)
    ∧ ∀ cfg : ArrConfig,
      (∀ m : SonarrMethod,
        lookupLast (SonarrClient.methodRequest (SonarrClient.make cfg) m).headers
            "X-Api-Key" = some cfg.apiKey
        ∧ lookupLast (SonarrClient.methodRequest (SonarrClient.make cfg) m).headers
            "Content-Type" = some "application/json")
      ∧ (∀ m : RadarrMethod,
        lookupLast (RadarrClient.methodRequest (RadarrClient.make cfg) m).headers
            "X-Api-Key" = some cfg.apiKey
        ∧ lookupLast (RadarrClient.methodRequest (RadarrClient.make cfg) m).headers
            "Content-Type" = some "application/json")
      ∧ (∀ m : LidarrMethod,
        lookupLast (LidarrClient.methodRequest (LidarrClient.make cfg) m).headers
            "X-Api-Key" = some cfg.apiKey
        ∧ lookupLast (LidarrClient.methodRequest (LidarrClient.make cfg) m).headers
            "Content-Type" = some "application/json")
      ∧ (∀ m : ReadarrMethod,
        lookupLast (ReadarrClient.methodRequest (ReadarrClient.make cfg) m).headers
            "X-Api-Key" = some cfg.apiKey
        ∧ lookupLast (ReadarrClient.methodRequest (ReadarrClient.make cfg) m).headers
            "Content-Type" = some "application/json")
      ∧ (∀ m : ProwlarrMethod,
        lookupLast (ProwlarrClient.methodRequest (ProwlarrClient.make cfg) m).headers
            "X-Api-Key" = some cfg.apiKey
        ∧ lookupLast (ProwlarrClient.methodRequest (ProwlarrClient.make cfg) m).headers
            "Content-Type" = some "application/json") := by
  refine ⟨fun st extra k => ?_, fun cfg => ?_⟩
  · unfold ArrClient.mergeHeaders
    exact lookupLast_append _ extra k
  refine ⟨fun m => ?_, fun m => ?_, fun m => ?_, fun m => ?_, fun m => ?_⟩ <;>
    cases m <;> exact ⟨rfl, rfl⟩

/-- C3 counterexample: the input
`{ tvdbId: 1, rootFolderPath: "/tv", qualityProfileId: 2, seasonFolder: false }`
lacks an explicit `monitored` field, yet the body `addSeries` posts for it has
`seasonFolder: false`, not `seasonFolder: true` — an explicit
`seasonFolder: false` survives even when `monitored` is absent, so the claim
as stated fails. -/
theorem addSeries_defaults_counterexample :
    lookupLast [("tvdbId", JsonVal.num 1), ("rootFolderPath", JsonVal.str "/tv"),
        ("qualityProfileId", JsonVal.num 2), ("seasonFolder", JsonVal.bool false)]
      "monitored" = none
    ∧ lookupLast (SonarrClient.addSeriesFields
        [("tvdbId", JsonVal.num 1), ("rootFolderPath", JsonVal.str "/tv"),
         ("qualityProfileId", JsonVal.num 2), ("seasonFolder", JsonVal.bool false)])
        "seasonFolder" = some (JsonVal.bool false)
    ∧ lookupLast (SonarrClient.addSeriesFields
        [("tvdbId", JsonVal.num 1), ("rootFolderPath", JsonVal.str "/tv"),
         ("qualityProfileId", JsonVal.num 2), ("seasonFolder", JsonVal.bool false)])
        "seasonFolder" ≠ some (JsonVal.bool true) := by
  refine ⟨rfl, rfl, ?_⟩
  have h : lookupLast (SonarrClient.addSeriesFields
      [("tvdbId", JsonVal.num 1), ("rootFolderPath", JsonVal.str "/tv"),
       ("qualityProfileId", JsonVal.num 2), ("seasonFolder", JsonVal.bool false)])
      "seasonFolder" = some (JsonVal.bool false) := rfl
  rw [h]
  simp

/-- C3 (amended): for every `addSeries` input lacking an explicit `monitored`
field the posted body has `monitored: true`; if it also lacks an explicit
`seasonFolder` field the posted body has `seasonFolder: true` (an explicit
`seasonFolder` is preserved even when `monitored` is absent); and
`addOptions.searchForMissingEpisodes: true` always.  An `addMovie` input with
explicit `monitored: false` keeps `monitored: false` and always gets
`addOptions.searchForMovie: true`.  The same `monitored ?? true` defaulting
holds for `addArtist` and `addAuthor`. -/
theorem addDefaults (fields : List (String × JsonVal)) :
    (lookupLast fields "monitored" = none →
      lookupLast (SonarrClient.addSeriesFields fields) "monitored"
        = some (JsonVal.bool true))
    ∧ (lookupLast fields "seasonFolder" = none →
      lookupLast (SonarrClient.addSeriesFields fields) "seasonFolder"
        = some (JsonVal.bool true))
    ∧ lookupLast (SonarrClient.addSeriesFields fields) "addOptions"
        = some (JsonVal.obj [("searchForMissingEpisodes", JsonVal.bool true)])
    ∧ (lookupLast fields "monitored" = some (JsonVal.bool false) →
      lookupLast (RadarrClient.addMovieFields fields) "monitored"
        = some (JsonVal.bool false))
    ∧ lookupLast (RadarrClient.addMovieFields fields) "addOptions"
        = some (JsonVal.obj [("searchForMovie", JsonVal.bool true)])
    ∧ (lookupLast fields "monitored" = none →
      lookupLast (LidarrClient.addArtistFields fields) "monitored"
        = some (JsonVal.bool true))
    ∧ (lookupLast fields "monitored" = some (JsonVal.bool false) →
      lookupLast (LidarrClient.addArtistFields fields) "monitored"
        = some (JsonVal.bool false))
    ∧ (lookupLast fields "monitored" = none →
      lookupLast (ReadarrClient.addAuthorFields fields) "monitored"
        = some (JsonVal.bool true))
    ∧ (lookupLast fields "monitored" = some (JsonVal.bool false) →
      lookupLast (ReadarrClient.addAuthorFields fields) "monitored"
        = some (JsonVal.bool false)) := by
  refine ⟨fun h => ?_, fun h => ?_, ?_, fun h => ?_, ?_, fun h => ?_, fun h => ?_,
    fun h => ?_, fun h => ?_⟩ <;>
    simp [SonarrClient.addSeriesFields, RadarrClient.addMovieFields,
      LidarrClient.addArtistFields, ReadarrClient.addAuthorFields,
      lookupLast_append, overrideLookup, lookupLast, jsNullish, *]

/-- Witness for C3 at the spec's example inputs: `addSeries` with
`{ tvdbId: 1, rootFolderPath: "/tv", qualityProfileId: 2 }` posts
`monitored: true` and `seasonFolder: true`; `addMovie` with
`{ tmdbId: 1, rootFolderPath: "/movies", qualityProfileId: 2,
monitored: false }` posts `monitored: false` and the fixed `addOptions`. -/
theorem addDefaults_witness :
    lookupLast (SonarrClient.addSeriesFields
        [("tvdbId", JsonVal.num 1), ("rootFolderPath", JsonVal.str "/tv"),
         ("qualityProfileId", JsonVal.num 2)]) "monitored"
      = some (JsonVal.bool true)
    ∧ lookupLast (SonarrClient.addSeriesFields
        [("tvdbId", JsonVal.num 1), ("rootFolderPath", JsonVal.str "/tv"),
         ("qualityProfileId", JsonVal.num 2)]) "seasonFolder"
      = some (JsonVal.bool true)
    ∧ lookupLast (RadarrClient.addMovieFields
        [("tmdbId", JsonVal.num 1), ("rootFolderPath", JsonVal.str "/movies"),
         ("qualityProfileId", JsonVal.num 2), ("monitored", JsonVal.bool false)])
        "monitored" = some (JsonVal.bool false)
    ∧ lookupLast (RadarrClient.addMovieFields
        [("tmdbId", JsonVal.num 1), ("rootFolderPath", JsonVal.str "/movies"),
         ("qualityProfileId", JsonVal.num 2), ("monitored", JsonVal.bool false)])
        "addOptions" = some (JsonVal.obj [("searchForMovie", JsonVal.bool true)])
    ∧ lookupLast (SonarrClient.addSeriesFields
        [("tvdbId", JsonVal.num 1), ("rootFolderPath", JsonVal.str "/tv"),
         ("qualityProfileId", JsonVal.num 2)]) "addOptions"
      = some (JsonVal.obj [("searchForMissingEpisodes", JsonVal.bool true)]) := by
  refine ⟨(addDefaults _).1 rfl, (addDefaults _).2.1 rfl, (addDefaults _).2.2.2.1 rfl,
    (addDefaults _).2.2.2.2.1, (addDefaults _).2.2.1⟩

/-- C4: for every `add*` call and every caller-supplied partial entity, the
fixed `addOptions` block is assigned last in the posted body, so even a
caller-supplied `addOptions` field is overridden: the posted `addOptions`
always equals exactly the fixed search-on-add block. -/
theorem addOptions_fixed (fields : List (String × JsonVal)) :
    lookupLast (SonarrClient.addSeriesFields fields) "addOptions"
      = some (JsonVal.obj [("searchForMissingEpisodes", JsonVal.bool true)])
    ∧ lookupLast (RadarrClient.addMovieFields fields) "addOptions"
      = some (JsonVal.obj [("searchForMovie", JsonVal.bool true)])
    ∧ lookupLast (LidarrClient.addArtistFields fields) "addOptions"
      = some (JsonVal.obj [("searchForMissingAlbums", JsonVal.bool true)])
    ∧ lookupLast (ReadarrClient.addAuthorFields fields) "addOptions"
      = some (JsonVal.obj [("searchForMissingBooks", JsonVal.bool true)]) := by
  refine ⟨?_, ?_, ?_, ?_⟩ <;>
    simp [SonarrClient.addSeriesFields, RadarrClient.addMovieFields,
      LidarrClient.addArtistFields, ReadarrClient.addAuthorFields,
      lookupLast_append, overrideLookup, lookupLast]

/-- C5: for every client state and every HTTP response with a non-ok status,
the call fails with the single service-API error kind whose message is the
service name, the numeric status, the status text and the raw body text in
the fixed format `"<service> API error: <status> <statusText> - <body>"`;
a network-level failure instead propagates unchanged as the distinct
transport-level failure kind.  The dispatcher consumes exactly one fetch
outcome, so no retry occurs in either case. -/
theorem apiError_format (st : ArrClientState) (r : HttpResponse) :
    (r.ok = false →
      ArrClient.handleResponse st (.response r)
        = .thrown (.api (st.serviceName ++ " API error: " ++ toString r.status
            ++ " " ++ r.statusText ++ " - " ++ r.bodyText)))
    ∧ ∀ e : String,
      ArrClient.handleResponse st (.networkFailure e) = .thrown (.transport e) := by
  refine ⟨fun h => ?_, fun e => rfl⟩
  simp [ArrClient.handleResponse, h]

/-- Witness for C5 at status `500` with body `"boom"` on a `sonarr` client:
the response is non-ok and the thrown message carries the service name, the
status and the body. -/
theorem apiError_format_witness :
    HttpResponse.ok ⟨500, "Internal Server Error", "boom", .null⟩ = false
    ∧ ArrClient.handleResponse ⟨"http://h", "k", "sonarr", "v3"⟩
        (.response ⟨500, "Internal Server Error", "boom", .null⟩)
      = .thrown (.api "sonarr API error: 500 Internal Server Error - boom") := by
  refine ⟨rfl, ?_⟩
  exact ((apiError_format ⟨"http://h", "k", "sonarr", "v3"⟩
    ⟨500, "Internal Server Error", "boom", .null⟩).1 rfl).trans rfl

/-- C6: `testConnection` never throws — it returns `true` exactly when the
underlying status call resolves with a value, and `false` whenever the call
fails with either failure kind, swallowing the error; and it is the only
method that swallows: every other method of every client returns the
dispatcher's outcome unchanged, so a thrown error propagates. -/
theorem testConnection_boolean (st : ArrClientState) (outcome : FetchOutcome) :
    (ArrClient.testConnection st outcome = true ↔
      ∃ v : JsonVal, ArrClient.handleResponse st outcome = .value v)
    ∧ (∀ e : ThrownError, ArrClient.handleResponse st outcome = .thrown e →
        ArrClient.testConnection st outcome = false)
    ∧ (∀ m : SonarrMethod, m.isTestConnection = false →
        (SonarrClient.run st m outcome).2 = ArrClient.handleResponse st outcome)
    ∧ (∀ m : RadarrMethod, m.isTestConnection = false →
        (RadarrClient.run st m outcome).2 = ArrClient.handleResponse st outcome)
    ∧ (∀ m : LidarrMethod, m.isTestConnection = false →
        (LidarrClient.run st m outcome).2 = ArrClient.handleResponse st outcome)
    ∧ (∀ m : ReadarrMethod, m.isTestConnection = false →
        (ReadarrClient.run st m outcome).2 = ArrClient.handleResponse st outcome)
    ∧ (∀ m : ProwlarrMethod, m.isTestConnection = false →
        (ProwlarrClient.run st m outcome).2 = ArrClient.handleResponse st outcome) := by
  refine ⟨?_, fun e he => ?_, fun m hm => ?_, fun m hm => ?_, fun m hm => ?_,
    fun m hm => ?_, fun m hm => ?_⟩
  · unfold ArrClient.testConnection
    cases h : ArrClient.handleResponse st outcome <;> simp
  · unfold ArrClient.testConnection
    rw [he]
  · simp [SonarrClient.run, hm]
  · simp [RadarrClient.run, hm]
  · simp [LidarrClient.run, hm]
  · simp [ReadarrClient.run, hm]
  · simp [ProwlarrClient.run, hm]

/-- Witness for C6: on a 500 response the `sonarr` client's `testConnection`
returns `false`, while `getSeries` on the same outcome propagates the
dispatcher's thrown error unchanged. -/
theorem testConnection_boolean_witness :
    ArrClient.testConnection ⟨"http://h", "k", "sonarr", "v3"⟩
      (.response ⟨500, "Internal Server Error", "boom", .null⟩) = false
    ∧ (SonarrClient.run ⟨"http://h", "k", "sonarr", "v3"⟩ SonarrMethod.getSeries
        (.response ⟨500, "Internal Server Error", "boom", .null⟩)).2
      = ArrClient.handleResponse ⟨"http://h", "k", "sonarr", "v3"⟩
          (.response ⟨500, "Internal Server Error", "boom", .null⟩) := by
  constructor
  · exact (testConnection_boolean ⟨"http://h", "k", "sonarr", "v3"⟩
      (.response ⟨500, "Internal Server Error", "boom", .null⟩)).2.1 _ rfl
  · exact (testConnection_boolean ⟨"http://h", "k", "sonarr", "v3"⟩
      (.response ⟨500, "Internal Server Error", "boom", .null⟩)).2.2.1
      SonarrMethod.getSeries rfl

/-- C8 counterexample: when the `/command` response body is
`{ id: 7, status: "queued" }`, `searchEpisode([1,2,3])` resolves with the
whole parsed object — the extra `status` field is *not* discarded, so the
return value is not `{ id: 7 }` alone (the `{ id }` shape exists only in the
TypeScript type cast). -/
theorem searchEpisode_counterexample :
    (SonarrClient.run ⟨"http://h", "k", "sonarr", "v3"⟩
        (SonarrMethod.searchEpisode [1, 2, 3])
        (.response ⟨200, "OK", "", .obj [("id", .num 7), ("status", .str "queued")]⟩)).2
      ≠ .value (.obj [("id", JsonVal.num 7)]) := by
  have h : (SonarrClient.run ⟨"http://h", "k", "sonarr", "v3"⟩
      (SonarrMethod.searchEpisode [1, 2, 3])
      (.response ⟨200, "OK", "", .obj [("id", .num 7), ("status", .str "queued")]⟩)).2
      = .value (.obj [("id", .num 7), ("status", .str "queued")]) := rfl
  rw [h]
  simp

/-- C8 (amended): `searchEpisode(episodeIds)` posts to `/command` a body
exactly `{ name: "EpisodeSearch", episodeIds }`, and its return value is the
parsed JSON response unchanged — it is merely *typed* as `{ id }`; no
response field is removed at runtime. -/
theorem searchEpisode_spec (st : ArrClientState) (ids : List Int)
    (outcome : FetchOutcome) :
    (SonarrClient.methodRequest st (.searchEpisode ids)).method = "POST"
    ∧ (SonarrClient.methodRequest st (.searchEpisode ids)).url
        = st.url ++ "/api/" ++ st.apiVersion ++ "/command"
    ∧ (SonarrClient.methodRequest st (.searchEpisode ids)).body
        = some (.obj [("name", .str "EpisodeSearch"),
            ("episodeIds", .arr (ids.map JsonVal.num))])
    ∧ (SonarrClient.run st (.searchEpisode ids) outcome).2
        = ArrClient.handleResponse st outcome :=
  ⟨rfl, rfl, rfl, rfl⟩

/-- C9: the configuration and service name fixed at construction are
immutable — every single method call returns the instance state unchanged,
and consequently after any sequence of calls on any client the stored
`url`, `apiKey`, `serviceName` and `apiVersion` still equal the constructed
state, which is the only state a client carries across calls. -/
theorem config_immutable (cfg : ArrConfig) :
    (∀ (st : ArrClientState) (m : SonarrMethod) (o : FetchOutcome),
      (SonarrClient.run st m o).1 = st)
    ∧ (∀ (st : ArrClientState) (m : RadarrMethod) (o : FetchOutcome),
      (RadarrClient.run st m o).1 = st)
    ∧ (∀ (st : ArrClientState) (m : LidarrMethod) (o : FetchOutcome),
      (LidarrClient.run st m o).1 = st)
    ∧ (∀ (st : ArrClientState) (m : ReadarrMethod) (o : FetchOutcome),
      (ReadarrClient.run st m o).1 = st)
    ∧ (∀ (st : ArrClientState) (m : ProwlarrMethod) (o : FetchOutcome),
      (ProwlarrClient.run st m o).1 = st)
    ∧ (∀ calls : List (SonarrMethod × FetchOutcome),
      SonarrClient.runAll (SonarrClient.make cfg) calls = SonarrClient.make cfg)
    ∧ (∀ calls : List (RadarrMethod × FetchOutcome),
      RadarrClient.runAll (RadarrClient.make cfg) calls = RadarrClient.make cfg)
    ∧ (∀ calls : List (LidarrMethod × FetchOutcome),
      LidarrClient.runAll (LidarrClient.make cfg) calls = LidarrClient.make cfg)
    ∧ (∀ calls : List (ReadarrMethod × FetchOutcome),
      ReadarrClient.runAll (ReadarrClient.make cfg) calls = ReadarrClient.make cfg)
    ∧ (∀ calls : List (ProwlarrMethod × FetchOutcome),
      ProwlarrClient.runAll (ProwlarrClient.make cfg) calls = ProwlarrClient.make cfg) :=
  ⟨fun _ _ _ => rfl, fun _ _ _ => rfl, fun _ _ _ => rfl, fun _ _ _ => rfl,
   fun _ _ _ => rfl,
   fun calls => generic_foldl_fixed _ (fun _ _ => rfl) calls _,
   fun calls => generic_foldl_fixed _ (fun _ _ => rfl) calls _,
   fun calls => generic_foldl_fixed _ (fun _ _ => rfl) calls _,
   fun calls => generic_foldl_fixed _ (fun _ _ => rfl) calls _,
   fun calls => generic_foldl_fixed _ (fun _ _ => rfl) calls _⟩

/-- C7 counterexample: `getCalendar("")` *gives* a start argument (the empty
string, which is distinct from `undefined`), yet the request URL carries no
query string at all — JavaScript `if (start)` treats the empty string as
falsy — so "when only start is given the query string contains only the
start parameter" fails at `start = ""`. -/
theorem calendarQuery_counterexample :
    ArrClient.calendarQuery (some "") none = ""
    ∧ (SonarrClient.methodRequest (SonarrClient.make ⟨"http://h", "k"⟩)
        (.base (.getCalendar (some "") none))).url = "http://h/api/v3/calendar" :=
  ⟨rfl, rfl⟩

/-- C7 (amended): with both arguments `undefined` the query string is omitted
entirely; when only `start` is given *and nonempty* the query string is
exactly `?start=<form-url-encoded start>`; when both are given and nonempty
both parameters appear, form-url-encoded; an explicitly given empty string
is treated like an absent argument.  This holds for the base
`ArrClient.getCalendar` and for the Lidarr and Readarr overrides. -/
theorem calendarQuery_spec (s e : String) :
    (ArrClient.calendarQuery none none = ""
      ∧ LidarrClient.calendarQuery none none = ""
      ∧ ReadarrClient.calendarQuery none none = "")
    ∧ (ArrClient.calendarQuery (some "") none = ""
      ∧ LidarrClient.calendarQuery (some "") none = ""
      ∧ ReadarrClient.calendarQuery (some "") none = "")
    ∧ (s ≠ "" →
      ArrClient.calendarQuery (some s) none = "?start=" ++ formEncode s
      ∧ LidarrClient.calendarQuery (some s) none = "?start=" ++ formEncode s
      ∧ ReadarrClient.calendarQuery (some s) none = "?start=" ++ formEncode s)
    ∧ (s ≠ "" → e ≠ "" →
      ArrClient.calendarQuery (some s) (some e)
        = "?start=" ++ formEncode s ++ "&end=" ++ formEncode e
      ∧ LidarrClient.calendarQuery (some s) (some e)
        = "?start=" ++ formEncode s ++ "&end=" ++ formEncode e
      ∧ ReadarrClient.calendarQuery (some s) (some e)
        = "?start=" ++ formEncode s ++ "&end=" ++ formEncode e) := by
  refine ⟨⟨rfl, rfl, rfl⟩, ⟨rfl, rfl, rfl⟩, fun hs => ?_, fun hs he => ?_⟩
  · refine ⟨?_, ?_, ?_⟩ <;>
      · simp only [ArrClient.calendarQuery, LidarrClient.calendarQuery,
          ReadarrClient.calendarQuery]
        rw [if_neg hs]
        rfl
  · have hne : searchParamsToString ([("start", s)] ++ [("end", e)]) ≠ "" := by
      show formEncode "start" ++ "=" ++ formEncode s ++ "&"
          ++ (formEncode "end" ++ "=" ++ formEncode e) ≠ ""
      exact str_append_ne_empty_left _ _ (str_append_ne_empty_left _ _
        (str_append_ne_empty_left _ _ (by decide)))
    refine ⟨?_, ?_, ?_⟩ <;>
      · simp only [ArrClient.calendarQuery, LidarrClient.calendarQuery,
          ReadarrClient.calendarQuery]
        rw [if_neg hs, if_neg he, if_neg hne]
        show "?" ++ (formEncode "start" ++ "=" ++ formEncode s ++ "&"
            ++ (formEncode "end" ++ "=" ++ formEncode e))
          = "?start=" ++ formEncode s ++ "&end=" ++ formEncode e
        apply strExt
        simp only [strData, List.append_assoc]
        rfl

/-- Witness for C7 at concrete dates: only-start and start-plus-end calls
produce exactly the claimed query strings. -/
theorem calendarQuery_spec_witness :
    ArrClient.calendarQuery (some "2024-01-01") none = "?start=2024-01-01"
    ∧ ArrClient.calendarQuery (some "2024-01-01") (some "2024-02-01")
        = "?start=2024-01-01&end=2024-02-01" := by
  constructor
  · exact ((calendarQuery_spec "2024-01-01" "2024-02-01").2.2.1
      (by decide)).1.trans rfl
  · exact ((calendarQuery_spec "2024-01-01" "2024-02-01").2.2.2
      (by decide) (by decide)).1.trans rfl
